import Mathlib

/-
Verification of the httpx fluent request builder (request.go).

The Go code is shallowly embedded: the builder state, the pending
http.Request fields the code touches, and each configuration method are
translated into executable Lean definitions.  External collaborators
(net/http's transport, encoding/json, mime/multipart's buffer-backed
writer, net/url's escaping) are modelled at the level of their documented
contracts: the transport is a function from attempt index to an outcome,
json.Marshal's outcome is passed in as a value, and the multipart boundary
is an explicit parameter standing for the randomly generated one.
-/

namespace Httpx

/-- Error values are modelled as strings (Go `error` messages). -/
abbrev ErrMsg := String

/-- An opaque successful `*http.Response`, identified by a tag. -/
abbrev Response := Nat

/-- A Go `context.Context`: either the distinguished background context or
a user context identified by a tag.  `context.Background()` returns a
singleton, so the `ctx == context.Background()` comparison in
`BuildWithContext` is equality with `.background`. -/
inductive Context where
  | background
  | custom (id : Nat)
deriving DecidableEq, Repr

/-- The parts of a `url.URL` the code touches: everything other than the
raw query is frozen into `base`. -/
structure URL where
  base : String
  rawQuery : String
deriving DecidableEq, Repr

/-- One encoded part of a multipart body: either a plain field written by
`writer.WriteField` or a file part created by `writer.CreateFormFile` and
filled by `io.Copy`. -/
inductive Part where
  | field (key value : String)
  | filePart (key filename : String) (content : List Nat)
deriving DecidableEq, Repr

/-- The closed set of `io.ReadCloser` body sources relevant to this code:
an in-memory buffer (`bytes.Buffer`, also NopCloser-wrapped), a byte-slice
reader (`bytes.Reader`), a string reader (`strings.Reader`), the fully
materialized multipart buffer, and an unrecognized opaque source. -/
inductive BodySource where
  | buffer (data : List Nat)
  | bytesReader (data : List Nat)
  | stringReader (s : String)
  | multipartBody (boundary : String) (parts : List Part)
  | otherSource (id : Nat)
deriving DecidableEq, Repr

/-- Number of bytes a body source holds, where known. -/
def BodySource.byteCount : BodySource → Option Nat
  | .buffer data => some data.length
  | .bytesReader data => some data.length
  | .stringReader s => some s.utf8ByteSize
  | .multipartBody _ _ => none
  | .otherSource _ => none

/-- The fields of `http.Request` that request.go reads or writes.
`getBody` models the `GetBody` replay function by the byte snapshot each
invocation of it would produce (`none` = no replay function attached). -/
structure Request where
  method : String
  url : URL
  headers : List (String × String)
  body : Option BodySource
  getBody : Option (List Nat)
  contentLength : Int
  form : List (String × List String)
  ctx : Context
deriving DecidableEq, Repr

/-- The builder: retry count (`uint`), sticky error slot, and the pending
request (`none` exactly when `http.NewRequest` failed inside `New`).  The
optional custom `*http.Client` is modelled by the transport argument of
`Do`. -/
structure RequestBuilder where
  retryTimes : Nat
  err : Option ErrMsg
  req : Option Request
deriving DecidableEq, Repr

/-- MIME canonicalization of a header key as performed by
`http.Header.Set` (net/textproto): the first letter and every letter
after a hyphen upper-cased, the rest lower-cased. -/
def canonicalKeyAux : Bool → List Char → List Char
  | _, [] => []
  | up, c :: cs =>
      if c = '-' then c :: canonicalKeyAux true cs
      else (if up then c.toUpper else c.toLower) :: canonicalKeyAux false cs

/-- Canonical MIME form of a header key. -/
def canonicalMIMEKey (s : String) : String :=
  String.mk (canonicalKeyAux true s.data)

/-- `http.Header.Set`: replace all values stored under the canonical key
with the single given value. -/
def headerSet (hs : List (String × String)) (k v : String) : List (String × String) :=
  let ck := canonicalMIMEKey k
  hs.filter (fun kv => kv.1 ≠ ck) ++ [(ck, v)]

/-- Byte-wise comparison of strings, used to model the sorted key order of
`url.Values.Encode`. -/
def leChars : List Char → List Char → Bool
  | [], _ => true
  | _ :: _, [] => false
  | a :: as, b :: bs => if a = b then leChars as bs else decide (a < b)

/-- String order for query-key sorting. -/
def strLe (a b : String) : Bool := leChars a.data b.data

/-- Stable insertion of one element into a sorted list. -/
def insertBy (le : α → α → Bool) (a : α) : List α → List α
  | [] => [a]
  | b :: bs => if le a b then a :: b :: bs else b :: insertBy le a bs

/-- Stable insertion sort by a boolean comparator. -/
def sortBy (le : α → α → Bool) : List α → List α
  | [] => []
  | a :: as => insertBy le a (sortBy le as)

/-- Whether `url.QueryEscape` leaves a character unescaped: alphanumerics
and `-_.~` pass through. -/
def unescapedChar (c : Char) : Bool :=
  c.isAlphanum || c = '-' || c = '_' || c = '.' || c = '~'

/-- Upper-case hexadecimal digit. -/
def hexDigit (n : Nat) : Char :=
  if n < 10 then Char.ofNat (48 + n) else Char.ofNat (55 + n)

/-- `url.QueryEscape` restricted to single-byte characters: space becomes
`+`, unreserved characters pass through, everything else is `%XX`. -/
def queryEscape (s : String) : String :=
  String.mk (s.data.foldr
    (fun c acc =>
      if c = ' ' then '+' :: acc
      else if unescapedChar c then c :: acc
      else '%' :: hexDigit (c.toNat / 16) :: hexDigit (c.toNat % 16) :: acc)
    [])

/-- `url.Values`: a mapping from key to the slice of its values, in
first-insertion key order. -/
abbrev Values := List (String × List String)

/-- `url.Values.Add`: append the value to the key's slice, creating the
key at the end if absent. -/
def valuesAdd (vs : Values) (k v : String) : Values :=
  match vs with
  | [] => [(k, [v])]
  | (k0, v0) :: rest =>
      if k0 = k then (k0, v0 ++ [v]) :: rest
      else (k0, v0) :: valuesAdd rest k v

/-- Build `url.Values` from the entries of a `map[string]string` by
repeated `Add`, in iteration order. -/
def valuesFromMap (m : List (String × String)) : Values :=
  m.foldl (fun vs kv => valuesAdd vs kv.1 kv.2) []

/-- `url.Values.Encode`: keys sorted, each value emitted as
`escape(k)=escape(v)`, entries joined by `&`. -/
def valuesEncode (vs : Values) : String :=
  let sorted := sortBy (fun a b => strLe a.1 b.1) vs
  String.intercalate "&"
    (sorted.flatMap (fun kv => kv.2.map (fun v => queryEscape kv.1 ++ "=" ++ queryEscape v)))

/-- The request produced by `http.NewRequest(http.MethodGet, url, nil)` on
success: GET, empty headers, no body, no replay function, zero content
length, background context. -/
def initRequest (u : URL) : Request :=
  { method := "GET", url := u, headers := [], body := none
    getBody := none, contentLength := 0, form := [], ctx := .background }

/-- `New(url)`: the outcome of `http.NewRequest` (URL parsing and request
construction are external) is passed in; the builder stores the request
and the error exactly as returned, even when the error is non-nil. -/
def New (res : Except ErrMsg URL) : RequestBuilder :=
  match res with
  | .ok u => { retryTimes := 0, err := none, req := some (initRequest u) }
  | .error e => { retryTimes := 0, err := some e, req := none }

/-- `Err()`: the current sticky error. -/
def RequestBuilder.Err (b : RequestBuilder) : Option ErrMsg := b.err

/-- `Method(method)`: sets the method with no sticky-error guard. -/
def RequestBuilder.Method (b : RequestBuilder) (m : String) : RequestBuilder :=
  { b with req := b.req.map (fun q => { q with method := m }) }

/-- `Get()`. -/
def RequestBuilder.Get (b : RequestBuilder) : RequestBuilder := b.Method "GET"

/-- `Post()`. -/
def RequestBuilder.Post (b : RequestBuilder) : RequestBuilder := b.Method "POST"

/-- `Put()`. -/
def RequestBuilder.Put (b : RequestBuilder) : RequestBuilder := b.Method "PUT"

/-- `Patch()`. -/
def RequestBuilder.Patch (b : RequestBuilder) : RequestBuilder := b.Method "PATCH"

/-- `Delete()`. -/
def RequestBuilder.Delete (b : RequestBuilder) : RequestBuilder := b.Method "DELETE"

/-- `Head()`. -/
def RequestBuilder.Head (b : RequestBuilder) : RequestBuilder := b.Method "HEAD"

/-- `Connect()`. -/
def RequestBuilder.Connect (b : RequestBuilder) : RequestBuilder := b.Method "CONNECT"

/-- `Options()`. -/
def RequestBuilder.Options (b : RequestBuilder) : RequestBuilder := b.Method "OPTIONS"

/-- `Trace()`. -/
def RequestBuilder.Trace (b : RequestBuilder) : RequestBuilder := b.Method "TRACE"

/-- `Body(body)`: stores the source as the request body, with no
sticky-error guard and no length or replay computation. -/
def RequestBuilder.Body (b : RequestBuilder) (src : BodySource) : RequestBuilder :=
  { b with req := b.req.map (fun q => { q with body := some src }) }

/-- `SetHeader(key, value)`: overwrite-set under the canonical key, a
no-op when the sticky error is set. -/
def RequestBuilder.SetHeader (b : RequestBuilder) (k v : String) : RequestBuilder :=
  match b.err with
  | some _ => b
  | none => { b with req := b.req.map (fun q => { q with headers := headerSet q.headers k v }) }

/-- `Form(values)`: attaches decoded form values, a no-op when the sticky
error is set. -/
def RequestBuilder.Form (b : RequestBuilder) (values : Values) : RequestBuilder :=
  match b.err with
  | some _ => b
  | none => { b with req := b.req.map (fun q => { q with form := values }) }

/-- `Query(queries)`: encodes the map into `url.Values` and appends the
encoding to the URL's existing raw query by `+=`; a no-op when the sticky
error is set.  The map is given as an entry list in iteration order. -/
def RequestBuilder.Query (b : RequestBuilder) (queries : List (String × String)) : RequestBuilder :=
  match b.err with
  | some _ => b
  | none =>
      let enc := valuesEncode (valuesFromMap queries)
      { b with req := b.req.map (fun q =>
          { q with url := { q.url with rawQuery := q.url.rawQuery ++ enc } }) }

/-- `AddQuery(key, value)`: single-pair convenience over `Query`. -/
def RequestBuilder.AddQuery (b : RequestBuilder) (k v : String) : RequestBuilder :=
  match b.err with
  | some _ => b
  | none => b.Query [(k, v)]

/-- `Json(v)`: `json.Marshal`'s outcome on `v` is passed in; on failure
the error is latched, on success the Content-Type header is set and the
body becomes a buffer over the serialized bytes.  No-op when the sticky
error is set. -/
def RequestBuilder.Json (b : RequestBuilder) (ser : Except ErrMsg (List Nat)) : RequestBuilder :=
  match b.err with
  | some _ => b
  | none =>
      match ser with
      | .error e => { b with err := some e }
      | .ok data => (b.SetHeader "Content-Type" "application/json").Body (.buffer data)

/-- `PostForm(values)`: sets the urlencoded Content-Type and a string
reader over `values.Encode()` as the body.  No-op when the sticky error is
set. -/
def RequestBuilder.PostForm (b : RequestBuilder) (values : Values) : RequestBuilder :=
  match b.err with
  | some _ => b
  | none =>
      (b.SetHeader "Content-Type" "application/x-www-form-urlencoded").Body
        (.stringReader (valuesEncode values))

/-- The byte content of a file attachment once opened: its bytes and
whether `io.Copy` reading it fails. -/
structure FileContent where
  bytes : List Nat
  copyErr : Option ErrMsg
deriving DecidableEq, Repr

/-- A `multipart.FileHeader`: filename, whether `Open()` fails, and the
content obtained when it succeeds. -/
structure FileHeader where
  filename : String
  openErr : Option ErrMsg
  content : FileContent
deriving DecidableEq, Repr

/-- A `multipart.Form`: value fields and file fields, each in the
iteration order of the underlying map. -/
structure MultipartFormData where
  value : List (String × List String)
  file : List (String × List FileHeader)
deriving DecidableEq, Repr

/-- The value-field loop of `MultipartForm`: one part per value, in
order.  `writer.WriteField` against a `bytes.Buffer` cannot fail. -/
def writeFields (acc : List Part) : List (String × List String) → List Part
  | [] => acc
  | (k, vs) :: rest => writeFields (acc ++ vs.map (Part.field k)) rest

/-- The inner file loop for one key: `CreateFormFile` (infallible against
a buffer), then `Open`, then `io.Copy`, then close; the first `Open` or
copy failure aborts with that error. -/
def writeFiles (k : String) (acc : List Part) : List FileHeader → Except ErrMsg (List Part)
  | [] => .ok acc
  | f :: fs =>
      match f.openErr with
      | some e => .error e
      | none =>
          match f.content.copyErr with
          | some e => .error e
          | none => writeFiles k (acc ++ [.filePart k f.filename f.content.bytes]) fs

/-- The outer file-field loop of `MultipartForm`. -/
def writeFileFields (acc : List Part) : List (String × List FileHeader) → Except ErrMsg (List Part)
  | [] => .ok acc
  | (k, fs) :: rest =>
      match writeFiles k acc fs with
      | .error e => .error e
      | .ok acc2 => writeFileFields acc2 rest

/-- The whole multipart encoding: all value parts, then all file parts. -/
def encodeMultipart (form : MultipartFormData) : Except ErrMsg (List Part) :=
  writeFileFields (writeFields [] form.value) form.file

/-- `MultipartForm(form)`: encodes into a local buffer; on any encoding
error the error is latched and the partially written local buffer is
discarded, leaving the request untouched; on success the boundary
Content-Type header is set and the body becomes the materialized buffer.
The boundary stands for the randomly generated one.  No-op when the sticky
error is set. -/
def RequestBuilder.MultipartForm (b : RequestBuilder) (boundary : String)
    (form : MultipartFormData) : RequestBuilder :=
  match b.err with
  | some _ => b
  | none =>
      match encodeMultipart form with
      | .error e => { b with err := some e }
      | .ok parts =>
          ((b.SetHeader "Content-Type" ("multipart/form-data; boundary=" ++ boundary)).Body
            (.multipartBody boundary parts))

/-- `Retry(retryTimes)`: last call wins.  The parameter is a Go `uint`,
so the stored value is reduced mod `2 ^ 64`. -/
def RequestBuilder.Retry (b : RequestBuilder) (n : Nat) : RequestBuilder :=
  { b with retryTimes := n % 2 ^ 64 }

/-- `BuildWithContext(ctx)`: the `(request, error)` pair the Go method
returns — the sticky error when set; otherwise the pending request, as-is
when `ctx` is the background context and rebound via `WithContext`
otherwise. -/
def RequestBuilder.BuildWithContext (b : RequestBuilder) (ctx : Context) :
    Option Request × Option ErrMsg :=
  match b.err with
  | some e => (none, some e)
  | none =>
      match b.req with
      | none => (none, none)
      | some q =>
          if ctx = Context.background then (some q, none)
          else (some { q with ctx := ctx }, none)

/-- `Build()`: `BuildWithContext` at the background context. -/
def RequestBuilder.Build (b : RequestBuilder) : Option Request × Option ErrMsg :=
  b.BuildWithContext .background

/-- A transport collaborator: the outcome of the i-th `client.Do(req)`
call (0-indexed). -/
abbrev Transport := Nat → Except ErrMsg Response

/-- The retry loop of `Do`, with the number of `client.Do` calls made as
a second component: run attempt `i`, return the response at the first
attempt without a transport error, and after exhausting the fuel return
the last observed error. -/
def runRetries (t : Transport) (i : Nat) : Nat → (Option Response × Option ErrMsg) × Nat
  | 0 => ((none, none), 0)
  | 1 =>
      match t i with
      | .ok resp => ((some resp, none), 1)
      | .error e => ((none, some e), 1)
  | fuel + 2 =>
      match t i with
      | .ok resp => ((some resp, none), 1)
      | .error _ =>
          ((runRetries t (i + 1) (fuel + 1)).1, (runRetries t (i + 1) (fuel + 1)).2 + 1)

/-- Reinterpretation of a 64-bit unsigned value as a signed 64-bit
integer, as performed by Go's `int(retryTimes)` conversion. -/
def uintToInt (n : Nat) : Int :=
  if n % 2 ^ 64 < 2 ^ 63 then ((n % 2 ^ 64 : Nat) : Int)
  else ((n % 2 ^ 64 : Nat) : Int) - 2 ^ 64

/-- `Do()`: build first, surfacing the sticky error with zero transport
calls; otherwise loop `i < int(retryTimes)` with `retryTimes` normalized
to `max(retryTimes, 1)`.  When the signed reinterpretation of the
normalized count is not positive (retryTimes at least `2 ^ 63`) the loop
body never runs and the nil response and nil error are returned.  The
`retryTimes` field holds a Go `uint`, so it is below `2 ^ 64`. -/
def RequestBuilder.Do (b : RequestBuilder) (t : Transport) :
    (Option Response × Option ErrMsg) × Nat :=
  match b.Build with
  | (_, some e) => ((none, some e), 0)
  | (_, none) =>
      if 0 < uintToInt (max b.retryTimes 1) then runRetries t 0 (max b.retryTimes 1)
      else ((none, none), 0)

/-! Shared concrete values used by the claim-level theorems. -/

/-- A concrete URL for instantiating theorems. -/
def locURL : URL := { base := "http://localhost", rawQuery := "" }

/-- A builder whose sticky error slot was latched by a failed `Json` call. -/
def stickyBuilder : RequestBuilder := (New (.ok locURL)).Json (.error "boom")

/-- A transport that fails on the first two attempts and then succeeds. -/
def witTransport : Transport := fun i => if i < 2 then .error "conn refused" else .ok 42

/-- A transport that fails on every attempt. -/
def failTransport : Transport := fun _ => .error "conn refused"

/-- A multipart form whose single file attachment fails to open. -/
def cexForm : MultipartFormData :=
  { value := [("a", ["x"])]
    file := [("f", [{ filename := "f.txt", openErr := some "open fail"
                      content := { bytes := [], copyErr := none } }])] }

/-! Lemmas about the retry loop. -/

/-- A successful attempt stops the loop after one call. -/
theorem runRetries_ok (t : Transport) {i : Nat} (fuel : Nat) {resp : Response}
    (h : t i = .ok resp) : runRetries t i (fuel + 1) = ((some resp, none), 1) := by
  cases fuel with
  | zero => simp only [runRetries, h]
  | succ f => simp only [runRetries, h]

/-- A failing attempt with no fuel left returns its error. -/
theorem runRetries_err_last (t : Transport) {i : Nat} {e : ErrMsg}
    (h : t i = .error e) : runRetries t i 1 = ((none, some e), 1) := by
  simp only [runRetries, h]

/-- A failing attempt with fuel remaining recurses on the next attempt. -/
theorem runRetries_err_step (t : Transport) {i : Nat} (f : Nat) {e : ErrMsg}
    (h : t i = .error e) :
    runRetries t i (f + 2) =
      ((runRetries t (i + 1) (f + 1)).1, (runRetries t (i + 1) (f + 1)).2 + 1) := by
  simp only [runRetries, h]

/-- The retry loop makes at most `fuel` transport calls. -/
theorem runRetries_calls_le (t : Transport) : ∀ (fuel i : Nat), (runRetries t i fuel).2 ≤ fuel := by
  intro fuel
  induction fuel with
  | zero => intro i; exact Nat.le_refl 0
  | succ f ih =>
      intro i
      cases hti : t i with
      | ok resp => rw [runRetries_ok t f hti]; omega
      | error e =>
          cases f with
          | zero => rw [runRetries_err_last t hti]
          | succ f2 =>
              rw [runRetries_err_step t f2 hti]
              have h := ih (i + 1)
              show (runRetries t (i + 1) (f2 + 1)).2 + 1 ≤ f2 + 1 + 1
              omega

/-- If the first `k` attempts fail and attempt `k` succeeds within the
fuel bound, the loop returns that response after exactly `k + 1` calls. -/
theorem runRetries_first_ok (t : Transport) :
    ∀ (k i fuel : Nat) (resp : Response), k < fuel →
      (∀ j, j < k → ∃ e, t (i + j) = .error e) →
      t (i + k) = .ok resp →
      runRetries t i fuel = ((some resp, none), k + 1) := by
  intro k
  induction k with
  | zero =>
      intro i fuel resp hk _ hok
      rw [Nat.add_zero] at hok
      cases fuel with
      | zero => omega
      | succ f => exact runRetries_ok t f hok
  | succ k ih =>
      intro i fuel resp hk hfail hok
      obtain ⟨e0, he0⟩ := hfail 0 (Nat.succ_pos k)
      rw [Nat.add_zero] at he0
      cases fuel with
      | zero => omega
      | succ f =>
          cases f with
          | zero => omega
          | succ f2 =>
              have hrec := ih (i + 1) (f2 + 1) resp (by omega)
                (fun j hj => by
                  obtain ⟨e, he⟩ := hfail (j + 1) (by omega)
                  exact ⟨e, by rwa [show i + (j + 1) = i + 1 + j by omega] at he⟩)
                (by rwa [show i + (k + 1) = i + 1 + k by omega] at hok)
              rw [runRetries_err_step t f2 he0, hrec]

/-- If every attempt within the fuel bound fails, the loop returns the
error of the last attempt after exactly `fuel` calls. -/
theorem runRetries_all_fail (t : Transport) :
    ∀ (fuel i : Nat), 0 < fuel →
      (∀ j, j < fuel → ∃ e, t (i + j) = .error e) →
      ∃ e, t (i + fuel - 1) = .error e ∧ runRetries t i fuel = ((none, some e), fuel) := by
  intro fuel
  induction fuel with
  | zero => intro i h; omega
  | succ f ih =>
      intro i _ hfail
      obtain ⟨e0, he0⟩ := hfail 0 (Nat.succ_pos f)
      rw [Nat.add_zero] at he0
      cases f with
      | zero =>
          exact ⟨e0, by simpa using he0, runRetries_err_last t he0⟩
      | succ f2 =>
          obtain ⟨e, he, hrun⟩ := ih (i + 1) (Nat.succ_pos f2) (fun j hj => by
            obtain ⟨e', he'⟩ := hfail (j + 1) (by omega)
            exact ⟨e', by rwa [show i + (j + 1) = i + 1 + j by omega] at he'⟩)
          refine ⟨e, ?_, ?_⟩
          · rwa [show i + (f2 + 1 + 1) - 1 = i + 1 + (f2 + 1) - 1 by omega]
          · rw [runRetries_err_step t f2 he0, hrun]

/-- The signed reinterpretation of a positive value below `2 ^ 63` is
positive. -/
theorem uintToInt_pos {n : Nat} (h1 : 0 < n) (h2 : n < 2 ^ 63) : 0 < uintToInt n := by
  have hm : n % 2 ^ 64 = n := Nat.mod_eq_of_lt (by omega)
  unfold uintToInt
  rw [hm, if_pos h2]
  exact_mod_cast h1

/-- With no sticky error, a live request, and a normalized retry count
whose signed reinterpretation is positive, `Do` is the retry loop at
fuel `max retryTimes 1`. -/
theorem Do_eq_runRetries (b : RequestBuilder) (q : Request) (t : Transport)
    (he : b.err = none) (hq : b.req = some q) (hrt : max b.retryTimes 1 < 2 ^ 63) :
    b.Do t = runRetries t 0 (max b.retryTimes 1) := by
  have hpos : 0 < uintToInt (max b.retryTimes 1) := uintToInt_pos (by omega) hrt
  simp [RequestBuilder.Do, RequestBuilder.Build, RequestBuilder.BuildWithContext, he, hq, hpos]

/-! Claim-level theorems. -/

/-- C1 (counterexample): after a failed `Json` call latches the sticky
error, `Method` is not a no-op — it still changes the pending request's
method from GET to POST, and `Body` still replaces the pending body; the
claim that every subsequent configuration call leaves the request
unchanged is therefore false. -/
theorem C1_cex :
    stickyBuilder.err = some "boom"
    ∧ stickyBuilder.req.map Request.method = some "GET"
    ∧ (stickyBuilder.Method "POST").req.map Request.method = some "POST"
    ∧ stickyBuilder.req.map Request.body = some none
    ∧ (stickyBuilder.Body (.buffer [1])).req.map Request.body
        = some (some (.buffer [1])) := by
  refine ⟨rfl, rfl, rfl, rfl, rfl⟩

/-- C1 (amended): once the sticky error is latched, the guarded
configuration calls — SetHeader, Form, Query, AddQuery, Json, PostForm,
MultipartForm — are no-ops, and Err, BuildWithContext, Build, and Do all
return exactly the latched error with zero transport calls; Method (with
its verb wrappers) and Body carry no guard: whenever the pending request
exists they still mutate its method or body, carrying the latched error
forward (on a builder whose construction failed the pending request is
nil and those two calls dereference a nil pointer). -/
theorem C1_sticky_propagation (b : RequestBuilder) (e : ErrMsg) (k v k2 v2 m : String)
    (values pf : Values) (queries : List (String × String))
    (ser : Except ErrMsg (List Nat)) (boundary : String) (form : MultipartFormData)
    (src : BodySource) (ctx : Context) (t : Transport)
    (he : b.err = some e) :
    b.SetHeader k v = b
    ∧ b.Form values = b
    ∧ b.Query queries = b
    ∧ b.AddQuery k2 v2 = b
    ∧ b.Json ser = b
    ∧ b.PostForm pf = b
    ∧ b.MultipartForm boundary form = b
    ∧ b.Err = some e
    ∧ b.BuildWithContext ctx = (none, some e)
    ∧ b.Build = (none, some e)
    ∧ b.Do t = ((none, some e), 0)
    ∧ (∀ q, b.req = some q →
        b.Method m = { b with req := some { q with method := m } }
        ∧ b.Body src = { b with req := some { q with body := some src } }) := by
  refine ⟨?_, ?_, ?_, ?_, ?_, ?_, ?_, ?_, ?_, ?_, ?_, ?_⟩
  · simp [RequestBuilder.SetHeader, he]
  · simp [RequestBuilder.Form, he]
  · simp [RequestBuilder.Query, he]
  · simp [RequestBuilder.AddQuery, he]
  · simp [RequestBuilder.Json, he]
  · simp [RequestBuilder.PostForm, he]
  · simp [RequestBuilder.MultipartForm, he]
  · exact he
  · simp [RequestBuilder.BuildWithContext, he]
  · simp [RequestBuilder.Build, RequestBuilder.BuildWithContext, he]
  · simp [RequestBuilder.Do, RequestBuilder.Build, RequestBuilder.BuildWithContext, he]
  · intro q hq
    constructor
    · simp [RequestBuilder.Method, hq]
    · simp [RequestBuilder.Body, hq]

/-- C1 witness: the amended theorem applied to the concrete sticky
builder, whose pending request exists. -/
theorem C1_sticky_propagation_witness :
    stickyBuilder.SetHeader "X-A" "1" = stickyBuilder
    ∧ stickyBuilder.Build = (none, some "boom")
    ∧ stickyBuilder.Do witTransport = ((none, some "boom"), 0)
    ∧ stickyBuilder.Method "POST"
        = { stickyBuilder with req := some { initRequest locURL with method := "POST" } } := by
  have h := C1_sticky_propagation stickyBuilder "boom" "X-A" "1" "k" "v" "POST"
    [] [] [] (.ok []) "bd" ⟨[], []⟩ (.buffer []) .background witTransport rfl
  exact ⟨h.1, h.2.2.2.2.2.2.2.2.2.1, h.2.2.2.2.2.2.2.2.2.2.1,
    (h.2.2.2.2.2.2.2.2.2.2.2 (initRequest locURL) rfl).1⟩

/-- C2 (counterexample): passing an in-memory buffer of three bytes to
`Body` leaves the declared content length at 0 (not 3) and attaches no
replay function, so no recognized source kind is materialized with its
byte count or a replay capability. -/
theorem C2_cex :
    ((New (.ok locURL)).Body (.buffer [1, 2, 3])).req.map Request.contentLength = some 0
    ∧ ((New (.ok locURL)).Body (.buffer [1, 2, 3])).req.map Request.getBody = some none
    ∧ (BodySource.buffer [1, 2, 3]).byteCount = some 3
    ∧ (0 : Int) ≠ 3 := by
  refine ⟨rfl, rfl, rfl, by decide⟩

/-- C2 (amended): `Body` stores the given source verbatim as the pending
request's body and performs no materialization — the declared content
length and the replay function are left exactly as they were, so no
length is recorded and no replay capability is attached for any source
kind. -/
theorem C2_body_stores_verbatim (b : RequestBuilder) (src : BodySource) (q : Request)
    (hq : b.req = some q) :
    (b.Body src).req = some { q with body := some src } := by
  simp [RequestBuilder.Body, hq]

/-- C2 witness: the amended theorem applied to a fresh builder and a
three-byte buffer. -/
theorem C2_body_stores_verbatim_witness :
    ((New (.ok locURL)).Body (.buffer [1, 2, 3])).req
      = some { initRequest locURL with body := some (.buffer [1, 2, 3]) } :=
  C2_body_stores_verbatim (New (.ok locURL)) (.buffer [1, 2, 3]) (initRequest locURL) rfl

/-- C3 (counterexample): with retry count `2 ^ 63` Go's
`int(retryTimes)` conversion is negative, so against an always-failing
transport `Do` makes zero transport calls and returns neither a response
nor an error — not the last attempt's transport error after
`max n 1` calls that the claim requires. -/
theorem C3_cex :
    ((New (.ok locURL)).Retry (2 ^ 63)).Do failTransport = ((none, none), 0)
    ∧ failTransport (max (2 ^ 63) 1 - 1) = .error "conn refused"
    ∧ (none : Option ErrMsg) ≠ some "conn refused"
    ∧ (0 : Nat) ≠ max (2 ^ 63) 1 := by
  refine ⟨by decide, rfl, by decide, by norm_num⟩

/-- C3 (amended): for retry counts `n < 2 ^ 63`, `Do` runs the transport
sequentially, makes at most `max n 1` calls, returns the response of the
first attempt with no transport error after exactly that many calls,
returns the last attempt's transport error after `max n 1` calls when
every attempt fails, behaves identically for `Retry 0` and `Retry 1`,
and with `Retry 3` a transport failing twice then succeeding yields the
response after exactly 3 calls.  (For `n ≥ 2 ^ 63` the loop bound
`int(retryTimes)` wraps negative, so the loop never runs.) -/
theorem C3_retry_semantics (b : RequestBuilder) (q : Request) (n : Nat) (t : Transport)
    (he : b.err = none) (hq : b.req = some q) (hn : n < 2 ^ 63) :
    ((b.Retry n).Do t).2 ≤ max n 1
    ∧ (∀ k resp, k < max n 1 → (∀ j, j < k → ∃ e, t j = .error e) → t k = .ok resp →
        (b.Retry n).Do t = ((some resp, none), k + 1))
    ∧ ((∀ j, j < max n 1 → ∃ e, t j = .error e) →
        ∃ e, t (max n 1 - 1) = .error e ∧ (b.Retry n).Do t = ((none, some e), max n 1))
    ∧ (b.Retry 0).Do t = (b.Retry 1).Do t
    ∧ (∀ resp, (∃ e0, t 0 = .error e0) → (∃ e1, t 1 = .error e1) → t 2 = .ok resp →
        (b.Retry 3).Do t = ((some resp, none), 3)) := by
  have hDo : ∀ m, m < 2 ^ 63 → (b.Retry m).Do t = runRetries t 0 (max m 1) := by
    intro m hm
    have hmod : m % 2 ^ 64 = m := Nat.mod_eq_of_lt (by omega)
    have hb : b.Retry m = { b with retryTimes := m } := by
      simp only [RequestBuilder.Retry, hmod]
    rw [hb]
    have h := Do_eq_runRetries { b with retryTimes := m } q t (by simpa using he)
      (by simpa using hq) (by simp only; omega)
    simpa using h
  refine ⟨?_, ?_, ?_, ?_, ?_⟩
  · rw [hDo n hn]; exact runRetries_calls_le t (max n 1) 0
  · intro k resp hk hfail hok
    rw [hDo n hn]
    exact runRetries_first_ok t k 0 (max n 1) resp hk
      (fun j hj => by simpa using hfail j hj) (by simpa using hok)
  · intro hfail
    rw [hDo n hn]
    obtain ⟨e, h1, h2⟩ := runRetries_all_fail t (max n 1) 0 (by omega)
      (fun j hj => by simpa using hfail j hj)
    exact ⟨e, by simpa using h1, h2⟩
  · rw [hDo 0 (by norm_num), hDo 1 (by norm_num)]; norm_num
  · intro resp h0 h1 h2
    obtain ⟨e0, h0⟩ := h0
    obtain ⟨e1, h1⟩ := h1
    rw [hDo 3 (by norm_num)]
    refine runRetries_first_ok t 2 0 (max 3 1) resp (by norm_num) ?_ (by simpa using h2)
    intro j hj
    interval_cases j
    · exact ⟨e0, by simpa using h0⟩
    · exact ⟨e1, by simpa using h1⟩

/-- C3 witness: with `Retry 3` and a transport failing on the first two
attempts then succeeding, `Do` returns the response after exactly 3
calls. -/
theorem C3_retry_semantics_witness :
    ((New (.ok locURL)).Retry 3).Do witTransport = ((some 42, none), 3) := by
  have h := (C3_retry_semantics (New (.ok locURL)) (initRequest locURL) 3 witTransport
    rfl rfl (by norm_num)).2.2.2.2
  exact h 42 ⟨"conn refused", rfl⟩ ⟨"conn refused", rfl⟩ rfl

/-- C4: with no sticky error, `Json` on a failed serialization latches
the error and leaves the previously set body and headers unmodified;
on a successful serialization it sets the Content-Type header to
application/json and the body to exactly the serialized bytes. -/
theorem C4_json_behavior (b : RequestBuilder) (q : Request)
    (he : b.err = none) (hq : b.req = some q) :
    (∀ e, b.Json (.error e) = { b with err := some e })
    ∧ ∀ data, b.Json (.ok data) =
        { b with req := some { q with
            headers := headerSet q.headers "Content-Type" "application/json"
            body := some (.buffer data) } } := by
  constructor
  · intro e
    simp [RequestBuilder.Json, he]
  · intro data
    simp [RequestBuilder.Json, RequestBuilder.SetHeader, RequestBuilder.Body, he, hq]

/-- C4 witness: the theorem applied to a fresh builder, with a failing
and a succeeding serialization. -/
theorem C4_json_behavior_witness :
    (New (.ok locURL)).Json (.error "boom") = { New (.ok locURL) with err := some "boom" }
    ∧ (New (.ok locURL)).Json (.ok [123, 125]) =
        { New (.ok locURL) with req := some { initRequest locURL with
            headers := headerSet (initRequest locURL).headers "Content-Type" "application/json"
            body := some (.buffer [123, 125]) } } := by
  have h := C4_json_behavior (New (.ok locURL)) (initRequest locURL) rfl rfl
  exact ⟨h.1 "boom", h.2 [123, 125]⟩

/-- C5: with no sticky error, whenever the multipart encoding of the
form fails (a file failing to open or to copy), `MultipartForm` latches
exactly that error and leaves everything else — in particular the
pending request's body and Content-Type header — exactly as it was, the
partial encoding being discarded. -/
theorem C5_multipart_error_atomic (b : RequestBuilder) (boundary : String)
    (form : MultipartFormData) (e : ErrMsg)
    (he : b.err = none) (henc : encodeMultipart form = .error e) :
    b.MultipartForm boundary form = { b with err := some e } := by
  simp [RequestBuilder.MultipartForm, he, henc]

/-- C5 witness: the theorem applied to a form whose file attachment
fails to open. -/
theorem C5_multipart_error_atomic_witness :
    encodeMultipart cexForm = .error "open fail"
    ∧ (New (.ok locURL)).MultipartForm "b1" cexForm
        = { New (.ok locURL) with err := some "open fail" } :=
  ⟨rfl, C5_multipart_error_atomic (New (.ok locURL)) "b1" cexForm "open fail" rfl rfl⟩

/-- C6: `BuildWithContext` returns the sticky error when set; otherwise
it returns the pending request as-is on the background context and the
request rebound to `ctx` on any other context; and `Build` equals
`BuildWithContext` at the background context. -/
theorem C6_build_with_context (b : RequestBuilder) (ctx : Context) (q : Request) :
    (∀ e, b.err = some e → b.BuildWithContext ctx = (none, some e))
    ∧ (b.err = none → b.req = some q →
        b.BuildWithContext Context.background = (some q, none)
        ∧ (ctx ≠ Context.background →
            b.BuildWithContext ctx = (some { q with ctx := ctx }, none)))
    ∧ b.Build = b.BuildWithContext Context.background := by
  refine ⟨?_, ?_, rfl⟩
  · intro e he
    simp [RequestBuilder.BuildWithContext, he]
  · intro he hq
    constructor
    · simp [RequestBuilder.BuildWithContext, he, hq]
    · intro hctx
      simp [RequestBuilder.BuildWithContext, he, hq, hctx]

/-- C6 witness: the theorem applied to a fresh builder and a custom
context. -/
theorem C6_build_with_context_witness :
    (New (.ok locURL)).BuildWithContext (.custom 7)
      = (some { initRequest locURL with ctx := .custom 7 }, none)
    ∧ (New (.ok locURL)).BuildWithContext .background = (some (initRequest locURL), none)
    ∧ (New (.ok locURL)).Build = (New (.ok locURL)).BuildWithContext .background := by
  have h := C6_build_with_context (New (.ok locURL)) (.custom 7) (initRequest locURL)
  exact ⟨(h.2.1 rfl rfl).2 (by decide), (h.2.1 rfl rfl).1, h.2.2⟩

/-- C7: with no sticky error, `Query` appends the encoding of its map to
the URL's existing raw query — the earlier raw query is preserved as a
prefix, never replaced — and on a builder with no prior query,
`Query [("key", "value")]` yields exactly the raw query `key=value`. -/
theorem C7_query_appends (b : RequestBuilder) (q : Request) (m : List (String × String))
    (he : b.err = none) (hq : b.req = some q) :
    (b.Query m).req = some { q with url := { q.url with
        rawQuery := q.url.rawQuery ++ valuesEncode (valuesFromMap m) } }
    ∧ (q.url.rawQuery = "" → m = [("key", "value")] →
        (b.Query m).req.map (fun r => r.url.rawQuery) = some "key=value") := by
  constructor
  · simp [RequestBuilder.Query, he, hq]
  · intro hraw hm
    subst hm
    simp [RequestBuilder.Query, he, hq, hraw]
    decide

/-- C7 witness: the theorem applied to a fresh builder with no prior
query. -/
theorem C7_query_appends_witness :
    ((New (.ok locURL)).Query [("key", "value")]).req.map (fun r => r.url.rawQuery)
      = some "key=value" :=
  (C7_query_appends (New (.ok locURL)) (initRequest locURL) [("key", "value")] rfl rfl).2
    rfl rfl

/-- Encoding a single-entry map is the escaped pair with no trailing or
leading separator. -/
theorem valuesEncode_single (k v : String) :
    valuesEncode (valuesFromMap [(k, v)]) = queryEscape k ++ "=" ++ queryEscape v := rfl

/-- C8: with no sticky error, `Query` on a single-entry map sets the raw
query to the plain concatenation of the previous raw query and the
URL-encoded pair, with no separator character in between; in particular
two successive `AddQuery` calls produce the raw query
`k1=v1k2=v2`-shaped string with no separator. -/
theorem C8_append_without_separator (b : RequestBuilder) (q : Request)
    (k v k1 v1 k2 v2 : String) (he : b.err = none) (hq : b.req = some q) :
    (b.Query [(k, v)]).req.map (fun r => r.url.rawQuery)
      = some (q.url.rawQuery ++ (queryEscape k ++ "=" ++ queryEscape v))
    ∧ ((b.AddQuery k1 v1).AddQuery k2 v2).req.map (fun r => r.url.rawQuery)
      = some (q.url.rawQuery ++ (queryEscape k1 ++ "=" ++ queryEscape v1)
          ++ (queryEscape k2 ++ "=" ++ queryEscape v2)) := by
  constructor
  · simp [RequestBuilder.Query, he, hq, valuesEncode_single]
  · simp [RequestBuilder.AddQuery, RequestBuilder.Query, he, hq, valuesEncode_single,
      String.append_assoc]

/-- C8 witness: two successive `AddQuery` calls on a fresh builder yield
the raw query `k1=v1k2=v2`. -/
theorem C8_append_without_separator_witness :
    (((New (.ok locURL)).AddQuery "k1" "v1").AddQuery "k2" "v2").req.map
        (fun r => r.url.rawQuery)
      = some "k1=v1k2=v2" := by
  have h := (C8_append_without_separator (New (.ok locURL)) (initRequest locURL)
    "k" "v" "k1" "v1" "k2" "v2" rfl rfl).2
  exact h.trans (by decide)

/-- C9: when request construction fails, `New` still returns a builder
holding the construction error: `Err` reports it, `BuildWithContext` and
`Build` return exactly it, and `Do` returns exactly it after zero
transport calls. -/
theorem C9_new_latches_construction_error (e : ErrMsg) (ctx : Context) (t : Transport) :
    (New (.error e)).err = some e
    ∧ (New (.error e)).Err = some e
    ∧ (New (.error e)).BuildWithContext ctx = (none, some e)
    ∧ (New (.error e)).Build = (none, some e)
    ∧ (New (.error e)).Do t = ((none, some e), 0) := by
  refine ⟨rfl, rfl, rfl, rfl, rfl⟩

/-- C10: `Body` modifies only the pending request's body field — the
sticky error slot, the retry count, and the request's method, URL
(including its raw query), headers, content length, replay function,
form values, and context are all unchanged. -/
theorem C10_body_frame (b : RequestBuilder) (src : BodySource) (q : Request)
    (hq : b.req = some q) :
    (b.Body src).err = b.err
    ∧ (b.Body src).retryTimes = b.retryTimes
    ∧ ∃ q2, (b.Body src).req = some q2
        ∧ q2.method = q.method ∧ q2.url = q.url ∧ q2.headers = q.headers
        ∧ q2.contentLength = q.contentLength ∧ q2.getBody = q.getBody
        ∧ q2.form = q.form ∧ q2.ctx = q.ctx ∧ q2.body = some src := by
  refine ⟨rfl, rfl, { q with body := some src }, ?_, rfl, rfl, rfl, rfl, rfl, rfl, rfl, rfl⟩
  simp [RequestBuilder.Body, hq]

/-- C10 witness: the frame property applied to a fresh builder and a
string-reader body. -/
theorem C10_body_frame_witness :
    ((New (.ok locURL)).Body (.stringReader "hi")).err = (New (.ok locURL)).err
    ∧ ∃ q2, ((New (.ok locURL)).Body (.stringReader "hi")).req = some q2
        ∧ q2.url = (initRequest locURL).url ∧ q2.headers = (initRequest locURL).headers := by
  have h := C10_body_frame (New (.ok locURL)) (.stringReader "hi") (initRequest locURL) rfl
  obtain ⟨h1, _, q2, hreq, _, hurl, hhdr, _⟩ := h
  exact ⟨h1, q2, hreq, hurl, hhdr⟩

end Httpx
